/-
  Verification of the MolStat histogram / simulator core against its
  natural-language specification.

  The C++ sources are shallowly embedded over a linear ordered field `α`
  (instantiated at `ℚ` for concrete evaluation and available at `ℝ`):
  `double` values become elements of `α`, `std::valarray` / `std::vector`
  become `List`s, functions that `throw` become `Except String` /
  `Except`-of-an-error-inductive, and the C++ sentinel extremes
  (`+DBL_MAX`, `lowest double`) become `Option α` with `none` standing for
  the still-unset sentinel (every real value compares below `+DBL_MAX`
  and above `lowest`, which is exactly the behaviour of `none` here).

  Embedded from src:
    * `Histogram` state, constructor, `add_data`, the validation and
      set-up part of `bin_data`, and `bin_values`
      (src/src/general/histogram_tools/histogram.cc)
    * `Simulator::simulate`, `Simulator::setObservable`
      (src/src/general/simulator_tools/simulator.cc)
    * `SimulateModelFactory::makeFactory`
      (src/src/general/simulator_tools/simulate_model.h)
  Parts of the repository that the build files list but that are absent
  from the tree (histogram.h, bin_linear/bin_log, the tuple-accumulation
  tail of `bin_data`, simulate_model.cc, composite_simulate_model.cc,
  simulate_model_factory.cc) are modelled from the specification; each
  such definition carries a doc comment starting `Modelled from the
  spec:`.
-/
import Mathlib

namespace molstat

/-- The `molstat::BinStyle` interface (histogram_tools/bin_style.h, listed
in the build files): a bin count `nbins` together with the mask function,
its inverse and its derivative. -/
structure BinStyle (α : Type) where
  nbins : ℕ
  mask : α → α
  invmask : α → α
  dmaskdx : α → α

/-- Modelled from the spec: `bin_linear.h`/`bin_linear.cc` are absent from
the tree.  Spec §4.2: "Linear: mask = identity"; the derivative of the
identity is 1. -/
def BinLinear (α : Type) [LinearOrderedField α] (nbins : ℕ) : BinStyle α :=
  { nbins := nbins, mask := id, invmask := id, dmaskdx := fun _ => 1 }

variable {α : Type} [LinearOrderedField α]

/-- State of `molstat::Histogram` (histogram.cc; the class declaration in
histogram.h is absent from the tree, the fields are those initialized by
the constructor and used by `add_data`/`bin_data`).  `extremes` keeps, per
axis, the running (min, max); `none` models the C++ sentinel values
`+DBL_MAX` (for the min) and `lowest double` (for the max) from the
constructor. -/
structure Histogram (α : Type) where
  haveBinned : Bool
  ndim : ℕ
  data : List (List α)
  extremes : List (Option α × Option α)
  bin_value : List (List α)
  binned_data : List ℕ
  deriving DecidableEq

/-- The constructor `Histogram::Histogram(ndim_)`: not binned, no data, extremes at the
sentinels, empty `bin_value` and `binned_data`. -/
def Histogram.init (ndim : ℕ) : Histogram α :=
  { haveBinned := false
    ndim := ndim
    data := []
    extremes := List.replicate ndim (none, none)
    bin_value := []
    binned_data := [] }

/-- The running-minimum update of `Histogram::add_data`:
`if (v[j] < extremes[j][0]) extremes[j][0] = v[j];` with `none` for the
untouched `+DBL_MAX` sentinel (any value is below it). -/
def updMinimum (m : Option α) (x : α) : Option α :=
  match m with
  | none => some x
  | some mn => if x < mn then some x else some mn

/-- The running-maximum update of `Histogram::add_data`:
`if (v[j] > extremes[j][1]) extremes[j][1] = v[j];` with `none` for the
untouched `lowest double` sentinel (any value is above it). -/
def updMaximum (m : Option α) (x : α) : Option α :=
  match m with
  | none => some x
  | some mx => if mx < x then some x else some mx

/-- One axis's extreme update from `Histogram::add_data`. -/
def updateExtreme (e : Option α × Option α) (x : α) : Option α × Option α :=
  (updMinimum e.1 x, updMaximum e.2 x)

/-- Embeds `Histogram::add_data`: error after binning, error on wrong
dimensionality, otherwise update the per-axis extremes and push the tuple
to the front of `data` (`emplace_front`). -/
def Histogram.add_data (h : Histogram α) (v : List α) :
    Except String (Histogram α) :=
  if h.haveBinned then
    .error "Cannot add data after binning the histogram."
  else if v.length ≠ h.ndim then
    .error "Data has incorrect dimensionality."
  else
    .ok { h with
            extremes := List.zipWith updateExtreme h.extremes v
            data := v :: h.data }

set_option linter.unusedVariables false in
/-- Embeds `Histogram::bin_values`: representative value of bin `j` is the
average of the unmasked lower bound `invmask(dmin + j*dwidth)` and the
unmasked upper bound `invmask(dmin + (j+1)*dwidth)`.  (`dmax` is taken
but unused, as in the source.) -/
def bin_values (dmin dmax dwidth : α) (bstyle : BinStyle α) : List α :=
  (List.range bstyle.nbins).map fun (j : ℕ) =>
    (bstyle.invmask (dmin + (j : α) * dwidth) +
      bstyle.invmask (dmin + ((j : α) + 1) * dwidth)) / 2

/-- The degenerate-range test of `bin_data`:
`extremes[j][0] == extremes[j][1]`.  The sentinels (`+DBL_MAX` vs
`lowest`) never compare equal, hence `false` unless both ends are set. -/
def extremesEqual (e : Option α × Option α) : Bool :=
  match e.1, e.2 with
  | some a, some b => decide (a = b)
  | _, _ => false

/-- The per-axis validation loop of `Histogram::bin_data` (lines 59–75):
in axis order, a missing (null) bin style, a bin count of 0, and a
degenerate range with `nbins != 1` each raise the corresponding error. -/
def checkAxes : List (Option (BinStyle α)) → List (Option α × Option α) →
    ℕ → Except String Unit
  | [], _, _ => .ok ()
  | none :: _, _, j =>
      .error ("No binning style specified for dimension " ++ toString j ++ ".")
  | some s :: rest, [], j =>
      if s.nbins = 0 then
        .error "There must be at least 1 bin in every dimension."
      else checkAxes rest [] (j + 1)
  | some s :: rest, e :: es, j =>
      if s.nbins = 0 then
        .error "There must be at least 1 bin in every dimension."
      else if extremesEqual e && s.nbins ≠ 1 then
        .error ("Unable to bin data with >1 bins in dimension" ++ toString j ++ ".")
      else checkAxes rest es (j + 1)

/-- Placeholder style used to dereference an axis's bin-style pointer
after validation has ruled out null pointers (the value is never
reached on the success path). -/
def nullStyle : BinStyle α := { nbins := 0, mask := id, invmask := id, dmaskdx := id }

/-- An axis after validation: its bin style and its observed (min, max),
the sentinel defaults standing in for the C++ garbage values that a
data-free axis would produce (never reached by a claim's scenario). -/
def axisOf (p : Option (BinStyle α) × (Option α × Option α)) :
    BinStyle α × α × α :=
  (p.1.getD nullStyle, p.2.1.getD 0, p.2.2.getD 0)

/-- Modelled from the spec: locating a masked coordinate within the
equal-width masked partition of an axis (the tuple-assignment tail of
`Histogram::bin_data` is absent from the tree).  Spec §4.3: bins are
closed–open, and a value at (or beyond) the top edge is dropped, so the
bin index is the `i < nbins` with
`dmin + i*width ≤ u < dmin + (i+1)*width`, if any. -/
def locateBin (dmin dwidth : α) (nbins : ℕ) (u : α) : Option ℕ :=
  (List.range nbins).find? fun i =>
    decide (dmin + (i : α) * dwidth ≤ u) &&
      decide (u < dmin + ((i : α) + 1) * dwidth)

/-- Masked bin width of an axis: `(mask max - mask min) / nbins`
(`bounds[j][2]` in `bin_data`). -/
def axisWidth (a : BinStyle α × α × α) : α :=
  (a.1.mask a.2.2 - a.1.mask a.2.1) / (a.1.nbins : α)

/-- Modelled from the spec: flat (row-major, last axis fastest) bin index
of one raw tuple, `none` when some coordinate falls outside its axis's
partition (in particular at the observed maximum: top edge excluded). -/
def tupleIndex : List (BinStyle α × α × α) → List α → Option ℕ
  | [], [] => some 0
  | a :: rest, x :: xs =>
      (locateBin (a.1.mask a.2.1) (axisWidth a) a.1.nbins (a.1.mask x)).bind
        fun i => (tupleIndex rest xs).map
          fun r => i * (rest.map fun b => b.1.nbins).prod + r
  | _, _ => none

/-- Embeds `Histogram::bin_data`.  The guards, the per-axis validation, the
masked bounds/width and `bin_value` computation follow histogram.cc
lines 47–99.  The remainder is modelled from the spec (the accumulation
tail of `bin_data` is absent from the tree): each raw tuple is assigned
to a bin by locating its masked coordinates in the partition (values at
the observed maximum excluded), per-bin raw counts are accumulated in
row-major order, and the one-shot `haveBinned` flag is set. -/
def Histogram.bin_data (h : Histogram α)
    (binstyles : List (Option (BinStyle α))) : Except String (Histogram α) :=
  if h.haveBinned then
    .error "Data has already been binned."
  else if binstyles.length ≠ h.ndim then
    .error "Incorrect number of binning styles."
  else
    match checkAxes binstyles h.extremes 0 with
    | .error e => .error e
    | .ok _ =>
        let axes := (binstyles.zip h.extremes).map axisOf
        let bv := axes.map fun a =>
          bin_values (a.1.mask a.2.1) (a.1.mask a.2.2) (axisWidth a) a.1
        let total := (axes.map fun a => a.1.nbins).prod
        let counts := h.data.foldl
          (fun acc v =>
            match tupleIndex axes v with
            | some k => acc.set k (acc.getD k 0 + 1)
            | none => acc)
          (List.replicate total 0)
        .ok { h with
                haveBinned := true
                bin_value := bv
                binned_data := counts }

/-- Sequentially `add_data` a list of tuples (oldest first), stopping at
the first error. -/
def addAll (h : Histogram α) : List (List α) → Except String (Histogram α)
  | [] => .ok h
  | v :: vs =>
      match h.add_data v with
      | .ok h2 => addAll h2 vs
      | .error e => .error e

/-- Cartesian product of the per-axis representative values in row-major
(last axis fastest) order: the representative coordinate vectors of the
bins, in the order their counts appear in `binned_data`. -/
def gridCoords : List (List α) → List (List α)
  | [] => [[]]
  | axis :: rest => axis.flatMap fun x => (gridCoords rest).map fun t => x :: t

/-- The ten data points of the 2-D linear-binning test
(test_histogram2d_linear.cc lines 34–43). -/
def testPoints : List (List ℚ) :=
  [[0.4, 0.4], [0.3, 0.7], [0.4, 0.0], [1.0, 0.7], [0.1, 0.8],
   [0.6, 0.1], [0.2, 0.2], [0.3, 0.0], [0.7, 1.0], [0.0, 0.8]]

/-- The end-to-end run of the 2-D linear test: a fresh 2-dimensional
histogram, the ten points, then binning with 2 linear bins per axis. -/
def linearTestRun : Except String (Histogram ℚ) :=
  (addAll (Histogram.init 2) testPoints).bind
    fun h => h.bin_data [some (BinLinear ℚ 2), some (BinLinear ℚ 2)]

/-- Modelled from the spec: `bin_log.h`/`bin_log.cc` are absent from the
tree.  Spec §4.2: "Logarithmic: mask = log_b(x) for configured base
b > 1; domain restricted to x > 0".  The inverse mask is `u ↦ b ^ u` and
the derivative of `log_b` is `1 / (x ln b)`. -/
noncomputable def BinLog (nbins : ℕ) (b : ℝ) : BinStyle ℝ :=
  { nbins := nbins
    mask := fun x => Real.logb b x
    invmask := fun u => b ^ u
    dmaskdx := fun x => 1 / (x * Real.log b) }

/-- The simulator-side error taxonomy
(simulator_tools/simulator_exceptions.h is listed in the build files but
absent from the tree; the three exceptions used by simulator.cc are
`molstat::NoObservables`, `molstat::IncompatibleObservable` and
`std::out_of_range`). -/
inductive SimErr where
  | noObservables
  | incompatibleObservable
  | outOfRange
  deriving DecidableEq

/-- The slice of `molstat::SimulateModel` that `Simulator` uses
(simulate_model.h): `generateParameters` draws one parameter vector,
advancing the random engine (explicit state passing of the C++ engine
reference), and `compatible_observables` maps an observable's
type-identity key (abstracted to `ℕ`) to its evaluator when the model
supports it. -/
structure SimModel (ρ π : Type) where
  genParams : ρ → π × ρ
  compatible_observables : ℕ → Option (π → ℝ)

/-- Modelled from the spec: `SimulateModel::getObservableFunction`'s body
(simulate_model.cc, absent from the tree); its header contract
(simulate_model.h lines 161–174): return the bound evaluator, or throw
`molstat::IncompatibleObservable` when the observable is incompatible
with the model. -/
def getObservableFunction {ρ π : Type} (m : SimModel ρ π) (obs : ℕ) :
    Except SimErr (π → ℝ) :=
  match m.compatible_observables obs with
  | some f => .ok f
  | none => .error .incompatibleObservable

/-- State of `molstat::Simulator` (simulator.h/simulator.cc): a bound model plus
the ordered list of output-column observable evaluators. -/
structure Simulator (ρ π : Type) where
  model : SimModel ρ π
  obs_functions : List (π → ℝ)

/-- Embeds `Simulator::simulate` (simulator.cc lines 22–38): error when no
observables are bound, otherwise draw one parameter vector and evaluate
every bound observable against that same vector. -/
def Simulator.simulate {ρ π : Type} (sim : Simulator ρ π) (r : ρ) :
    Except SimErr (List ℝ × ρ) :=
  let num_obs := sim.obs_functions.length
  if num_obs = 0 then .error .noObservables
  else
    let pr := sim.model.genParams r
    .ok (sim.obs_functions.map (fun f => f pr.1), pr.2)

/-- Embeds `Simulator::setObservable` (simulator.cc lines 40–54): out-of-range
when `j` skips past the current length, then fetch the evaluator (an
incompatible observable's error passes upward), then either rebind
column `j` or append a new column. -/
def Simulator.setObservable {ρ π : Type} (sim : Simulator ρ π) (j : ℕ)
    (obs : ℕ) : Except SimErr (Simulator ρ π) :=
  let length := sim.obs_functions.length
  if j > length then .error .outOfRange
  else
    match getObservableFunction sim.model obs with
    | .error e => .error e
    | .ok func =>
        if j < length then
          .ok { sim with obs_functions := sim.obs_functions.set j func }
        else
          .ok { sim with obs_functions := sim.obs_functions ++ [func] }

/-- A bound random-number distribution
(random_distributions/rng.h, absent from the tree): drawing a sample
advances the engine state (explicit state passing). -/
structure RandomDistribution (ρ : Type) where
  sample : ρ → ℝ × ρ

/-- Modelled from the spec: the parameter-owning model hierarchy
(simulate_model.cc / composite_simulate_model.cc are absent from the
tree).  A plain model owns its ordered bound distributions; a composite
model owns its own distributions plus an ordered list of submodels
(spec §3, §4.4). -/
inductive SModel (ρ : Type) where
  | base (dists : List (RandomDistribution ρ))
  | composite (own : List (RandomDistribution ρ)) (subs : List (SModel ρ))

/-- Sample every distribution in declared order, threading the engine. -/
def sampleAll {ρ : Type} :
    List (RandomDistribution ρ) → ρ → List ℝ × ρ
  | [], r => ([], r)
  | d :: ds, r =>
      let xr := d.sample r
      let rest := sampleAll ds xr.2
      (xr.1 :: rest.1, rest.2)

mutual
/-- Modelled from the spec: `SimulateModel::get_num_parameters` /
`CompositeSimulateModel::get_num_parameters` (bodies in
simulate_model.cc / composite_simulate_model.cc, absent from the tree).
Spec §4.4: own declared count, plus, for a composite model, its
submodels' counts. -/
def get_num_parameters {ρ : Type} : SModel ρ → ℕ
  | .base dists => dists.length
  | .composite own subs => own.length + subsNumParameters subs

/-- Total parameter count of a submodel list, in submodel order. -/
def subsNumParameters {ρ : Type} : List (SModel ρ) → ℕ
  | [] => 0
  | m :: ms => get_num_parameters m + subsNumParameters ms
end

mutual
/-- Modelled from the spec: `SimulateModel::generateParameters` /
`CompositeSimulateModel::generateParameters` (bodies absent from the
tree).  Spec §4.4: sample one value per bound distribution in declared
order; a composite model samples its own parameters first, then each
submodel's in submodel-list order, concatenating. -/
def generateParameters {ρ : Type} : SModel ρ → ρ → List ℝ × ρ
  | .base dists, r => sampleAll dists r
  | .composite own subs, r =>
      let pown := sampleAll own r
      let psub := generateSubParameters subs pown.2
      (pown.1 ++ psub.1, psub.2)

/-- Sample each submodel of a composite model in order, concatenating. -/
def generateSubParameters {ρ : Type} : List (SModel ρ) → ρ → List ℝ × ρ
  | [], r => ([], r)
  | m :: ms, r =>
      let p := generateParameters m r
      let ps := generateSubParameters ms p.2
      (p.1 ++ ps.1, ps.2)
end

/-- Factory error taxonomy (simulator_exceptions.h, absent from the
tree): `molstat::MissingDistribution` and `molstat::NoSubmodels`. -/
inductive FactoryErr where
  | missingDistribution
  | noSubmodels
  deriving DecidableEq

/-- State of `molstat::SimulateModelFactory` (simulate_model.h lines
343–424): the model under construction, the cached declared parameter
names, the set of (lower-cased) names still lacking a distribution, and
the submodel bookkeeping (`comp_model` abstracted to the `isComposite`
flag plus a count of successful `addSubmodel` calls). -/
structure SimulateModelFactory (ρ : Type) where
  model : SModel ρ
  model_names : List String
  remaining_names : List String
  isComposite : Bool
  numSubmodels : ℕ

/-- Embeds `SimulateModelFactory::makeFactory` (simulate_model.h lines
459–483): caches the model's declared names (`names` abstracts the
virtual `get_names()`), fills `remaining_names` with their lower-cased
set, and records whether the model is composite (the
`dynamic_pointer_cast`). -/
def makeFactory {ρ : Type} (m : SModel ρ) (names : List String) :
    SimulateModelFactory ρ :=
  { model := m
    model_names := names
    remaining_names := (names.map (fun s => s.toLower)).dedup
    isComposite := match m with | .composite _ _ => true | .base _ => false
    numSubmodels := 0 }

/-- Modelled from the spec: `SimulateModelFactory::getModel` (body in
simulate_model_factory.cc, absent from the tree); its header contract
(simulate_model.h lines 410–423) and spec §4.5: missing-distribution
error when a declared name is still unbound, no-submodels error when a
composite model has no submodel, otherwise the finalized model. -/
def SimulateModelFactory.getModel {ρ : Type}
    (f : SimulateModelFactory ρ) : Except FactoryErr (SModel ρ) :=
  if f.remaining_names ≠ [] then .error .missingDistribution
  else if f.isComposite = true ∧ f.numSubmodels = 0 then .error .noSubmodels
  else .ok f.model

/-- A small already-populated 1-dimensional histogram: values 0 and 1
inserted, not yet binned. -/
def smallHist : Histogram ℚ :=
  { haveBinned := false
    ndim := 1
    data := [[0], [1]]
    extremes := [(some 0, some 1)]
    bin_value := []
    binned_data := [] }

/-- The histogram `smallHist` binned with one linear bin: the value 1 sits at the
observed maximum and is excluded, leaving a single count. -/
def smallBinned : Histogram ℚ :=
  { smallHist with
      haveBinned := true
      bin_value := [[1/2]]
      binned_data := [1] }

/-- Concrete histogram holding 0.4, 0.2, 0.7 (inserted in that order,
stored newest first). -/
def c10Hist : Histogram ℚ :=
  { haveBinned := false
    ndim := 1
    data := [[0.7], [0.2], [0.4]]
    extremes := [(some 0.2, some 0.7)]
    bin_value := []
    binned_data := [] }

/-- The per-axis validity condition enforced by `bin_data`'s validation
loop: a bin style is present, its bin count is nonzero, and a degenerate
observed range (stored min equal to stored max) forces a bin count of
exactly 1. -/
def axisOk {α : Type} [LinearOrderedField α]
    (p : Option (BinStyle α) × (Option α × Option α)) : Prop :=
  match p.1 with
  | none => False
  | some s => s.nbins ≠ 0 ∧ (extremesEqual p.2 = true → s.nbins = 1)

/-- A 1-dimensional histogram whose two inserted values coincide:
a degenerate (zero-span) axis. -/
def degHist : Histogram ℚ :=
  { haveBinned := false
    ndim := 1
    data := [[1/2], [1/2]]
    extremes := [(some (1/2), some (1/2))]
    bin_value := []
    binned_data := [] }

/-- A concrete model over engine state `ℕ` and parameter type `ℕ`: the
"engine" is a counter, one draw returns the counter and advances it, and
only observable key 0 is supported. -/
def demoModel : SimModel ℕ ℕ :=
  { genParams := fun r => (r, r + 1)
    compatible_observables := fun k =>
      if k = 0 then some (fun p => (p : ℝ)) else none }

/-- A simulator bound to `demoModel` with one bound observable column. -/
def demoSim : Simulator ℕ ℕ :=
  { model := demoModel
    obs_functions := [fun p => (p : ℝ)] }

end molstat

open molstat

/-- C1: a 2-dimensional histogram with 2 linear bins per axis, fed the
ten test points and then binned, holds raw counts 4, 3, 1, 0 in bins
(0,0), (0,1), (1,0), (1,1) — the two points with a coordinate at the
observed maximum 1.0 are excluded from their nominal top bin — and the
bins' representative coordinates are (0.25,0.25), (0.25,0.75),
(0.75,0.25), (0.75,0.75), in that (row-major) order. -/
theorem histogram2d_linear_scenario :
    linearTestRun.map (fun h => (h.binned_data, gridCoords h.bin_value)) =
      .ok ([4, 3, 1, 0],
           [[0.25, 0.25], [0.25, 0.75], [0.75, 0.25], [0.75, 0.75]]) := by
  norm_num [linearTestRun, testPoints, addAll, Histogram.add_data,
    Histogram.init, updateExtreme, updMinimum, updMaximum,
    Histogram.bin_data, checkAxes, extremesEqual, axisOf, bin_values,
    axisWidth, locateBin, tupleIndex, gridCoords, BinLinear, nullStyle,
    List.find?, List.replicate, Except.bind, Except.map, Option.bind,
    Option.getD, List.zip, List.zipWith, List.range_succ, List.range_zero,
    List.flatMap, Nat.cast_ofNat, Nat.cast_zero, Nat.cast_one]

/-- A successful `bin_data` produces a histogram with the `haveBinned`
flag set. -/
theorem bin_data_sets_haveBinned {α : Type} [LinearOrderedField α]
    {h h' : Histogram α}
    {bs : List (Option (BinStyle α))} (hok : h.bin_data bs = .ok h') :
    h'.haveBinned = true := by
  unfold Histogram.bin_data at hok
  split at hok
  · exact absurd hok (by simp)
  · split at hok
    · exact absurd hok (by simp)
    · split at hok
      · exact absurd hok (by simp)
      · cases hok
        rfl

/-- C2: binning is one-shot and irreversible: once `bin_data` has
succeeded, every later `add_data` fails with the after-binning error and
every later `bin_data` fails with the already-binned error (in this
embedding an error returns no new histogram, so the state is left
unchanged). -/
theorem binning_is_one_shot {α : Type} [LinearOrderedField α]
    {h h' : Histogram α}
    {bs : List (Option (BinStyle α))} (hok : h.bin_data bs = .ok h') :
    (∀ v, h'.add_data v =
        .error "Cannot add data after binning the histogram.") ∧
    (∀ bs2, h'.bin_data bs2 = .error "Data has already been binned.") := by
  have hb := bin_data_sets_haveBinned hok
  constructor
  · intro v
    unfold Histogram.add_data
    rw [hb]
    simp
  · intro bs2
    unfold Histogram.bin_data
    rw [hb]
    simp

theorem binning_is_one_shot_witness :
    smallBinned.add_data [1/2] =
        .error "Cannot add data after binning the histogram." ∧
      smallBinned.bin_data [some (BinLinear ℚ 1)] =
        .error "Data has already been binned." := by
  have hok : smallHist.bin_data [some (BinLinear ℚ 1)] = .ok smallBinned := by
    norm_num [smallHist, smallBinned, Histogram.bin_data, checkAxes,
      extremesEqual, axisOf, bin_values, axisWidth, locateBin, tupleIndex,
      BinLinear, nullStyle, List.find?, List.replicate, Option.bind,
      Option.getD, List.zip, List.zipWith, List.range_succ,
      List.range_zero, List.flatMap, Nat.cast_zero, Nat.cast_one]
  have hmain := binning_is_one_shot hok
  exact ⟨hmain.1 [1/2], hmain.2 [some (BinLinear ℚ 1)]⟩

theorem updMinimum_some {α : Type} [LinearOrderedField α] (a x : α) :
    updMinimum (some a) x = some (min x a) := by
  show (if x < a then some x else some a) = _
  split_ifs with hx
  · rw [min_eq_left hx.le]
  · rw [min_eq_right (not_lt.mp hx)]

theorem updMaximum_some {α : Type} [LinearOrderedField α] (b x : α) :
    updMaximum (some b) x = some (max b x) := by
  show (if b < x then some x else some b) = _
  split_ifs with hx
  · rw [max_eq_right hx.le]
  · rw [max_eq_left (not_lt.mp hx)]

theorem foldl_updMinimum_some {α : Type} [LinearOrderedField α]
    (xs : List α) : ∀ a : α,
    List.foldl updMinimum (some a) xs = some (xs.foldl min a) := by
  induction xs with
  | nil => intro a; rfl
  | cons x xs ih =>
      intro a
      simp only [List.foldl_cons, updMinimum_some]
      rw [min_comm x a]
      exact ih (min a x)

theorem foldl_updMaximum_some {α : Type} [LinearOrderedField α]
    (xs : List α) : ∀ b : α,
    List.foldl updMaximum (some b) xs = some (xs.foldl max b) := by
  induction xs with
  | nil => intro b; rfl
  | cons x xs ih =>
      intro b
      simp only [List.foldl_cons, updMaximum_some]
      exact ih (max b x)

/-- Folding the running-minimum update from the unset sentinel computes
the minimum of the inserted values. -/
theorem foldl_updMinimum_eq_min {α : Type} [LinearOrderedField α]
    (xs : List α) : List.foldl updMinimum none xs = xs.min? := by
  cases xs with
  | nil => rfl
  | cons x xs =>
      simp only [List.foldl_cons]
      show List.foldl updMinimum (some x) xs = _
      rw [foldl_updMinimum_some]
      rfl

/-- Folding the running-maximum update from the unset sentinel computes
the maximum of the inserted values. -/
theorem foldl_updMaximum_eq_max {α : Type} [LinearOrderedField α]
    (xs : List α) : List.foldl updMaximum none xs = xs.max? := by
  cases xs with
  | nil => rfl
  | cons x xs =>
      simp only [List.foldl_cons]
      show List.foldl updMaximum (some x) xs = _
      rw [foldl_updMaximum_some]
      rfl

theorem foldl_updateExtreme_pair {α : Type} [LinearOrderedField α]
    (xs : List α) : ∀ p : Option α × Option α,
    List.foldl updateExtreme p xs =
      (List.foldl updMinimum p.1 xs, List.foldl updMaximum p.2 xs) := by
  induction xs with
  | nil => intro p; rfl
  | cons x xs ih =>
      intro p
      simp only [List.foldl_cons]
      rw [ih]
      rfl

/-- Per-axis decomposition of the extremes fold: axis `j` of the folded
extremes list is the fold of axis `j`'s inserted values. -/
theorem foldl_zipWith_getElem? {α : Type} [LinearOrderedField α]
    (vs : List (List α)) :
    ∀ (es : List (Option α × Option α)) (j : ℕ)
      (e0 : Option α × Option α),
      es[j]? = some e0 → (∀ v ∈ vs, v.length = es.length) →
      (vs.foldl (fun e v => List.zipWith updateExtreme e v) es)[j]? =
        some (vs.foldl (fun p v => updateExtreme p (v.getD j 0)) e0) := by
  induction vs with
  | nil => intro es j e0 he _; simpa using he
  | cons v vs ih =>
      intro es j e0 he hlen
      have hj : j < es.length := by
        by_contra hge
        rw [List.getElem?_eq_none (not_lt.mp hge)] at he
        exact Option.noConfusion he
      have hv : v.length = es.length := hlen v (by simp)
      have hjv : j < v.length := hv ▸ hj
      have hes2 : (List.zipWith updateExtreme es v)[j]? =
          some (updateExtreme e0 (v.getD j 0)) := by
        rw [List.getElem?_zipWith, he, List.getElem?_eq_getElem hjv,
          List.getD_eq_getElem?_getD, List.getElem?_eq_getElem hjv]
        rfl
      simp only [List.foldl_cons]
      rw [ih _ _ _ hes2 ?_]
      intro w hw
      rw [List.length_zipWith, hv, min_self]
      exact hlen w (List.mem_cons_of_mem v hw)

/-- Running `addAll` on an unbinned histogram succeeds and leaves
exactly the inserted tuples (newest first) and the folded per-axis
extremes. -/
theorem addAll_ok {α : Type} [LinearOrderedField α] (vs : List (List α)) :
    ∀ h : Histogram α, h.haveBinned = false →
      (∀ v ∈ vs, v.length = h.ndim) →
      addAll h vs = .ok { h with
        data := vs.reverse ++ h.data
        extremes :=
          vs.foldl (fun e v => List.zipWith updateExtreme e v) h.extremes } := by
  induction vs with
  | nil =>
      intro h hb _
      show Except.ok h = _
      simp
  | cons v vs ih =>
      intro h hb hlen
      have hv : v.length = h.ndim := hlen v (by simp)
      have h1eq : h.add_data v = .ok { h with
          extremes := List.zipWith updateExtreme h.extremes v
          data := v :: h.data } := by
        unfold Histogram.add_data
        rw [hb]
        simp [hv]
      show (match h.add_data v with
            | .ok h2 => addAll h2 vs
            | .error e => .error e) = _
      rw [h1eq]
      show addAll { h with
          extremes := List.zipWith updateExtreme h.extremes v
          data := v :: h.data } vs = _
      rw [ih { h with
          extremes := List.zipWith updateExtreme h.extremes v
          data := v :: h.data } hb
        (fun w hw => hlen w (List.mem_cons_of_mem v hw))]
      simp [List.append_assoc]

/-- C10: after any sequence of successful `add_data` calls, the stored
extremes on axis `j` are exactly the minimum and the maximum of the
values inserted on that axis; before the first insertion every axis sits
at the unset sentinels (`+DBL_MAX`, `lowest double`, modelled by
`(none, none)`), so the first inserted tuple sets both ends. -/
theorem extremes_track_min_max {α : Type} [LinearOrderedField α]
    (n : ℕ) (vs : List (List α)) (j : ℕ) (h : Histogram α)
    (hlen : ∀ v ∈ vs, v.length = n) (hj : j < n)
    (hrun : addAll (Histogram.init n) vs = .ok h) :
    (Histogram.init (α := α) n).extremes = List.replicate n (none, none) ∧
    h.extremes[j]? =
      some ((vs.map fun v => v.getD j 0).min?,
            (vs.map fun v => v.getD j 0).max?) := by
  refine ⟨rfl, ?_⟩
  rw [addAll_ok vs (Histogram.init n) rfl hlen] at hrun
  cases hrun
  show (vs.foldl (fun e v => List.zipWith updateExtreme e v)
      (List.replicate n (none, none)))[j]? = _
  rw [foldl_zipWith_getElem? vs (List.replicate n (none, none)) j
      (none, none) (by rw [List.getElem?_replicate]; simp [hj])
      (by simpa using hlen)]
  rw [← List.foldl_map (fun v => v.getD j 0) updateExtreme vs (none, none)]
  rw [foldl_updateExtreme_pair]
  rw [foldl_updMinimum_eq_min, foldl_updMaximum_eq_max]

theorem extremes_track_min_max_witness :
    (Histogram.init (α := ℚ) 1).extremes = List.replicate 1 (none, none) ∧
    c10Hist.extremes[0]? =
      some ((([[0.4], [0.2], [0.7]] : List (List ℚ)).map
              fun v => v.getD 0 0).min?,
            (([[0.4], [0.2], [0.7]] : List (List ℚ)).map
              fun v => v.getD 0 0).max?) :=
  extremes_track_min_max 1 [[0.4], [0.2], [0.7]] 0 c10Hist
    (by intro v hv; fin_cases hv <;> rfl) (by decide)
    (by norm_num [addAll, Histogram.add_data, Histogram.init,
      updateExtreme, updMinimum, updMaximum, c10Hist, List.zipWith,
      List.replicate])

/-- The validation loop accepts exactly the axis lists in which every
axis satisfies `axisOk`. -/
theorem checkAxes_ok_iff {α : Type} [LinearOrderedField α]
    (ss : List (Option (BinStyle α))) :
    ∀ (es : List (Option α × Option α)) (j : ℕ), ss.length ≤ es.length →
    (checkAxes ss es j = .ok () ↔ ∀ p ∈ ss.zip es, axisOk p) := by
  induction ss with
  | nil => intro es j _; simp [checkAxes]
  | cons os rest ih =>
      intro es j hle
      cases es with
      | nil => simp at hle
      | cons e es2 =>
          have hle2 : rest.length ≤ es2.length := by simpa using hle
          cases os with
          | none =>
              constructor
              · intro hc; exact absurd hc (by simp [checkAxes])
              · intro hall
                have hfalse := hall (none, e) (by simp)
                simp [axisOk] at hfalse
          | some s =>
              simp only [checkAxes, List.zip_cons_cons, List.forall_mem_cons]
              by_cases h0 : s.nbins = 0
              · simp [h0, axisOk]
              · rw [if_neg h0]
                by_cases hdeg : extremesEqual e = true ∧ s.nbins ≠ 1
                · rw [if_pos (by
                      simp only [Bool.and_eq_true, decide_eq_true_eq]
                      exact hdeg)]
                  simp only [axisOk]
                  constructor
                  · intro hc; exact absurd hc (by simp)
                  · intro hall; exact absurd (hall.1.2 hdeg.1) hdeg.2
                · rw [if_neg (by
                      simp only [Bool.and_eq_true, decide_eq_true_eq]
                      exact hdeg)]
                  rw [ih es2 (j + 1) hle2]
                  simp only [axisOk]
                  constructor
                  · intro hrest
                    refine ⟨⟨h0, fun hE => ?_⟩, hrest⟩
                    by_contra h1
                    exact hdeg ⟨hE, h1⟩
                  · intro hall; exact hall.2

/-- C8: for an unbinned histogram (with a style list of the right
length), `bin_data` errors exactly when some axis has no bin style, a
bin count of 0, or a bin count above 1 on a degenerate (zero-span) axis;
when every axis is valid the validation passes and binning proceeds. -/
theorem bin_validation {α : Type} [LinearOrderedField α]
    {h : Histogram α} {styles : List (Option (BinStyle α))}
    (hb : h.haveBinned = false) (hlen : styles.length = h.ndim)
    (hext : h.extremes.length = h.ndim) :
    (∃ h', h.bin_data styles = .ok h') ↔
      ∀ p ∈ styles.zip h.extremes, axisOk p := by
  unfold Histogram.bin_data
  rw [hb, hlen]
  simp only [Bool.false_eq_true, if_false, ne_eq, not_true_eq_false,
    ite_false]
  rw [← checkAxes_ok_iff styles h.extremes 0 (le_of_eq (hlen ▸ hext ▸ rfl))]
  cases hc : checkAxes styles h.extremes 0 with
  | error e => simp [hc]
  | ok u => cases u; simp [hc]

theorem bin_validation_witness :
    (∃ h', degHist.bin_data [some (BinLinear ℚ 2)] = .ok h') ↔
      ∀ p ∈ [some (BinLinear ℚ 2)].zip degHist.extremes, axisOk p :=
  bin_validation rfl rfl rfl

/-- C7: after a successful binning, the representative coordinate of bin
`i` on axis `j` is the average, in unmasked space, of the endpoints of
the `i`-th equal-width masked interval: `(invmask l + invmask u) / 2`
with `l = mask min + i·w`, `u = mask min + (i+1)·w`,
`w = (mask max − mask min) / nbins` — not the arithmetic center of the
raw interval. -/
theorem representative_coordinates {α : Type} [LinearOrderedField α]
    {h h' : Histogram α} {styles : List (Option (BinStyle α))}
    {j i : ℕ} {s : BinStyle α} {mn mx : α}
    (hok : h.bin_data styles = .ok h')
    (hs : styles[j]? = some (some s))
    (he : h.extremes[j]? = some (some mn, some mx))
    (hi : i < s.nbins) :
    h'.bin_value[j]?.bind (fun row => row[i]?) =
      some ((s.invmask (s.mask mn +
              (i : α) * ((s.mask mx - s.mask mn) / (s.nbins : α))) +
            s.invmask (s.mask mn +
              ((i : α) + 1) * ((s.mask mx - s.mask mn) / (s.nbins : α)))) / 2) := by
  unfold Histogram.bin_data at hok
  split at hok
  · exact absurd hok (by simp)
  · split at hok
    · exact absurd hok (by simp)
    · split at hok
      · exact absurd hok (by simp)
      · cases hok
        have hz : (styles.zip h.extremes)[j]? =
            some (some s, (some mn, some mx)) :=
          List.getElem?_zip_eq_some.mpr ⟨hs, he⟩
        dsimp only
        rw [List.getElem?_map, List.getElem?_map, hz]
        simp only [Option.map_some', Option.some_bind, axisOf, Option.getD]
        unfold bin_values
        rw [List.getElem?_map _ (List.range s.nbins) i,
          List.getElem?_range hi]
        simp only [Option.map_some']
        rfl

theorem representative_coordinates_witness :
    smallBinned.bin_value[0]?.bind (fun row => row[0]?) =
      some (((BinLinear ℚ 1).invmask ((BinLinear ℚ 1).mask 0 +
              ((0 : ℕ) : ℚ) *
                (((BinLinear ℚ 1).mask 1 - (BinLinear ℚ 1).mask 0) /
                  ((BinLinear ℚ 1).nbins : ℚ))) +
            (BinLinear ℚ 1).invmask ((BinLinear ℚ 1).mask 0 +
              (((0 : ℕ) : ℚ) + 1) *
                (((BinLinear ℚ 1).mask 1 - (BinLinear ℚ 1).mask 0) /
                  ((BinLinear ℚ 1).nbins : ℚ)))) / 2) := by
  have hok : smallHist.bin_data [some (BinLinear ℚ 1)] = .ok smallBinned := by
    norm_num [smallHist, smallBinned, Histogram.bin_data, checkAxes,
      extremesEqual, axisOf, bin_values, axisWidth, locateBin, tupleIndex,
      BinLinear, nullStyle, List.find?, List.replicate, Option.bind,
      Option.getD, List.zip, List.zipWith, List.range_succ,
      List.range_zero, List.flatMap, Nat.cast_zero, Nat.cast_one]
  exact representative_coordinates hok rfl rfl (by decide)

/-- C3: with at least one bound column, `simulate` returns one entry per
bound column, each the corresponding observable evaluated on the single
parameter vector drawn once from the model (the same vector for every
column, and the engine advanced by exactly that one draw); with no bound
columns it fails with the no-observables error. -/
theorem simulate_per_trial {ρ π : Type} (sim : Simulator ρ π) (r : ρ) :
    (sim.obs_functions.length = 0 →
      sim.simulate r = .error .noObservables) ∧
    (sim.obs_functions.length ≠ 0 →
      sim.simulate r =
        .ok (sim.obs_functions.map (fun f => f (sim.model.genParams r).1),
             (sim.model.genParams r).2) ∧
      (sim.obs_functions.map
          (fun f => f (sim.model.genParams r).1)).length =
        sim.obs_functions.length) := by
  constructor
  · intro h0
    simp [Simulator.simulate, h0]
  · intro hne
    refine ⟨?_, List.length_map _ _⟩
    simp [Simulator.simulate, hne]

theorem simulate_per_trial_witness :
    demoSim.simulate 5 =
      .ok (demoSim.obs_functions.map
            (fun f => f (demoSim.model.genParams 5).1),
           (demoSim.model.genParams 5).2) :=
  ((simulate_per_trial demoSim 5).2 (by decide)).1

/-- C4: `setObservable j key` fails out-of-range when `j` skips past the
current column-list length, fails incompatible-observable when the model
does not support `key`, appends exactly one new column when `j` equals
the current length, and rebinds column `j` when `j` is below it. -/
theorem setObservable_contract {ρ π : Type} (sim : Simulator ρ π)
    (j obs : ℕ) :
    (j > sim.obs_functions.length →
      sim.setObservable j obs = .error .outOfRange) ∧
    (j ≤ sim.obs_functions.length →
      sim.model.compatible_observables obs = none →
      sim.setObservable j obs = .error .incompatibleObservable) ∧
    (∀ f, sim.model.compatible_observables obs = some f →
      (j = sim.obs_functions.length →
        sim.setObservable j obs =
          .ok { sim with obs_functions := sim.obs_functions ++ [f] } ∧
        (sim.obs_functions ++ [f]).length =
          sim.obs_functions.length + 1) ∧
      (j < sim.obs_functions.length →
        sim.setObservable j obs =
          .ok { sim with obs_functions := sim.obs_functions.set j f })) := by
  refine ⟨?_, ?_, ?_⟩
  · intro hj
    simp [Simulator.setObservable, hj]
  · intro hj hnone
    have hg : getObservableFunction sim.model obs =
        .error .incompatibleObservable := by
      unfold getObservableFunction
      rw [hnone]
    simp [Simulator.setObservable, if_neg (not_lt.mpr hj), hg]
  · intro f hf
    have hg : getObservableFunction sim.model obs = .ok f := by
      unfold getObservableFunction
      rw [hf]
    constructor
    · intro hjeq
      refine ⟨?_, by simp⟩
      simp [Simulator.setObservable, hjeq, hg]
    · intro hjlt
      simp [Simulator.setObservable, if_neg (not_lt.mpr hjlt.le), hg, hjlt]

theorem setObservable_contract_witness :
    demoSim.setObservable 1 0 =
      .ok { demoSim with
              obs_functions :=
                demoSim.obs_functions ++ [fun (p : ℕ) => (p : ℝ)] } :=
  (((setObservable_contract demoSim 1 0).2.2
      (fun (p : ℕ) => (p : ℝ)) rfl).1 rfl).1

theorem sampleAll_length {ρ : Type} (ds : List (RandomDistribution ρ)) :
    ∀ r : ρ, (sampleAll ds r).1.length = ds.length := by
  induction ds with
  | nil => intro r; rfl
  | cons d ds ih =>
      intro r
      show ((d.sample r).1 :: (sampleAll ds (d.sample r).2).1).length = _
      simp [ih]

theorem subsNumParameters_eq_sum {ρ : Type} (ms : List (SModel ρ)) :
    subsNumParameters ms = (ms.map get_num_parameters).sum := by
  induction ms with
  | nil => rfl
  | cons m ms ih => simp [subsNumParameters, ih]

theorem generateParameters_length_aux {ρ : Type} :
    ∀ (k : ℕ) (m : SModel ρ), sizeOf m ≤ k → ∀ r : ρ,
      (generateParameters m r).1.length = get_num_parameters m := by
  intro k
  induction k with
  | zero =>
      intro m hm
      cases m with
      | base dists => simp [SModel.base.sizeOf_spec] at hm
      | composite own subs => simp [SModel.composite.sizeOf_spec] at hm
  | succ k ih =>
      intro m hm r
      cases m with
      | base dists =>
          show (sampleAll dists r).1.length = dists.length
          exact sampleAll_length dists r
      | composite own subs =>
          have hsubs : sizeOf subs ≤ k := by
            simp only [SModel.composite.sizeOf_spec] at hm
            omega
          have hsub : ∀ (ms : List (SModel ρ)), sizeOf ms ≤ sizeOf subs →
              ∀ r2 : ρ, (generateSubParameters ms r2).1.length =
                subsNumParameters ms := by
            intro ms
            induction ms with
            | nil => intro _ r2; rfl
            | cons m2 ms2 ih2 =>
                intro hsz r2
                have hm2 : sizeOf m2 ≤ k := by
                  simp only [List.cons.sizeOf_spec] at hsz
                  omega
                have hms2 : sizeOf ms2 ≤ sizeOf subs := by
                  simp only [List.cons.sizeOf_spec] at hsz
                  omega
                show ((generateParameters m2 r2).1 ++
                    (generateSubParameters ms2 (generateParameters m2 r2).2).1).length = _
                rw [List.length_append, ih m2 hm2 r2, ih2 hms2]
                rfl
          show ((sampleAll own r).1 ++
              (generateSubParameters subs (sampleAll own r).2).1).length = _
          rw [List.length_append, sampleAll_length,
            hsub subs le_rfl]
          rfl

/-- C5: a composite model's parameter count is its own declared count
plus the sum of its submodels' counts, and `generateParameters` always
returns a vector of exactly `get_num_parameters` entries. -/
theorem composite_parameter_count {ρ : Type} :
    (∀ (own : List (RandomDistribution ρ)) (subs : List (SModel ρ)),
      get_num_parameters (SModel.composite own subs) =
        own.length + (subs.map get_num_parameters).sum) ∧
    (∀ (m : SModel ρ) (r : ρ),
      (generateParameters m r).1.length = get_num_parameters m) := by
  constructor
  · intro own subs
    show own.length + subsNumParameters subs = _
    rw [subsNumParameters_eq_sum]
  · intro m r
    exact generateParameters_length_aux (sizeOf m) m le_rfl r

/-- C6: `getModel` fails with the missing-distribution error while any
declared parameter name is still unbound, fails with the no-submodels
error for a composite model with no submodel added, and otherwise
succeeds, returning the finalized model. -/
theorem getModel_validation {ρ : Type} (f : SimulateModelFactory ρ) :
    (f.remaining_names ≠ [] →
      f.getModel = .error .missingDistribution) ∧
    (f.remaining_names = [] → f.isComposite = true → f.numSubmodels = 0 →
      f.getModel = .error .noSubmodels) ∧
    (f.remaining_names = [] →
      (f.isComposite = false ∨ 0 < f.numSubmodels) →
      f.getModel = .ok f.model) := by
  refine ⟨?_, ?_, ?_⟩
  · intro hne
    simp [SimulateModelFactory.getModel, hne]
  · intro hnil hcomp hzero
    simp [SimulateModelFactory.getModel, hnil, hcomp, hzero]
  · intro hnil hcase
    cases hcase with
    | inl hfalse => simp [SimulateModelFactory.getModel, hnil, hfalse]
    | inr hpos =>
        simp [SimulateModelFactory.getModel, hnil, Nat.pos_iff_ne_zero.mp hpos]

theorem getModel_validation_witness :
    (makeFactory (SModel.base ([] : List (RandomDistribution ℕ)))
        ["Epsilon"]).getModel = .error .missingDistribution :=
  (getModel_validation _).1 (by simp [makeFactory])

/-- C9: for the linear bin style (mask the identity) and the logarithmic
bin style with base `b > 1` on its domain `x > 0`, `invmask` undoes
`mask` exactly. -/
theorem binstyle_roundtrip (b x y : ℝ) (hb : 1 < b) (hx : 0 < x) :
    (BinLinear ℝ 1).invmask ((BinLinear ℝ 1).mask y) = y ∧
    (BinLog 1 b).invmask ((BinLog 1 b).mask x) = x := by
  constructor
  · rfl
  · show b ^ Real.logb b x = x
    exact Real.rpow_logb (lt_trans one_pos hb) (ne_of_gt hb) hx

theorem binstyle_roundtrip_witness :
    (BinLinear ℝ 1).invmask ((BinLinear ℝ 1).mask 5) = 5 ∧
    (BinLog 1 10).invmask ((BinLog 1 10).mask 2) = 2 :=
  binstyle_roundtrip 10 2 5 (by norm_num) (by norm_num)
